import Mathlib

set_option linter.unusedVariables false

/-!
Shallow embedding of the `regex-charclass` crate.

Codepoints are modelled as `Nat`.  A Rust `char` is a Unicode scalar value:
a codepoint below the surrogate gap `0xD800..=0xDFFF` or between `0xE000`
and `0x10FFFF`.  Rust `u32` arithmetic is modelled on `Nat`, with an
explicit wrap modulo `2 ^ 32` at the one site where the source can
underflow (release-mode semantics).  A Rust `panic!` is modelled by
returning `none`.

Range sets (from the external `irange` crate, a black box per the spec)
are modelled as lists of `(min, max)` codepoint pairs, the pairing of the
flat even-length endpoint sequence the source indexes two at a time.
-/

/-- The first codepoint of the UTF-16 surrogate gap (`INVALID_MIN` in the
source). -/
def INVALID_MIN : Nat := 0xD800

/-- The last codepoint of the surrogate gap (`INVALID_MAX` in the source). -/
def INVALID_MAX : Nat := 0xDFFF

/-- The width of the surrogate gap (`INVALID_SIZE` in the source). -/
def INVALID_SIZE : Nat := 0x800

/-- `n` is a valid Unicode scalar value: in range and outside the
surrogate gap.  This is exactly the set of values a Rust `char` can hold. -/
def isScalar (n : Nat) : Prop :=
  n < 0xD800 ∨ (0xE000 ≤ n ∧ n ≤ 0x10FFFF)

instance (n : Nat) : Decidable (isScalar n) := by
  unfold isScalar
  exact inferInstance

/-- Rust `char::from_u32` (and `Char::from_u32`, which wraps it):
`some n` when `n` is a valid scalar value, `none` otherwise. -/
def charFromU32 (n : Nat) : Option Nat :=
  if isScalar n then some n else none

lemma charFromU32_eq (n : Nat) : charFromU32 n =
    if n < 0xD800 ∨ (0xE000 ≤ n ∧ n ≤ 0x10FFFF) then some n else none := rfl

/-- The logical value of a codepoint: codepoints at or above the gap start
are shifted down by the gap width, so that the valid scalar values form a
contiguous axis `0 .. 0x10F7FF`.  This inline pattern
(`if x >= INVALID_MIN { x -= INVALID_SIZE }`) appears in the source in
`Sub for Char` and in `get_cardinality`. -/
def toLogical (x : Nat) : Nat :=
  if 0xD800 ≤ x then x - 0x800 else x

/-- `impl Add<Char> for Char` from `src/char.rs`: add the raw codepoints;
if the raw sum lands inside the surrogate gap, move it just past the gap
(`INVALID_MAX + 1 + sum - INVALID_MIN`, i.e. shift up by the gap width);
`panic!` (modelled as `none`) when the result is not a valid scalar value. -/
def charAdd (a b : Nat) : Option Nat :=
  charFromU32 (if 0xD800 ≤ a + b ∧ a + b ≤ 0xDFFF then 0xDFFF + 1 + (a + b) - 0xD800 else a + b)

/-- Rust `u32` wrapping subtraction `a - b` (release-mode semantics:
two's-complement wrap modulo `2 ^ 32`, written without `%` so that it
kernel-reduces; it agrees with the wrap for operands below `2 ^ 32`,
which every call site guarantees). -/
def u32wrapSub (a b : Nat) : Nat :=
  if b ≤ a then a - b else a + 4294967296 - b

/-- Rust `u32` wrapping addition modulo `2 ^ 32`, for operands below
`2 ^ 32`. -/
def u32wrapAdd (a b : Nat) : Nat :=
  if a + b < 4294967296 then a + b else a + b - 4294967296

/-- `impl Sub<Char> for Char` from `src/char.rs`: shift both operands to
the logical axis, subtract (`u32` subtraction, wrapping on underflow),
shift the difference back up by the gap width when it lands at or above
the gap start, and `panic!` (modelled as `none`) when the result is not a
valid scalar value. -/
def charSub (a b : Nat) : Option Nat :=
  charFromU32
    (if 0xD800 ≤ u32wrapSub (toLogical a) (toLogical b)
      then u32wrapAdd (u32wrapSub (toLogical a) (toLogical b)) 0x800
      else u32wrapSub (toLogical a) (toLogical b))

/-- Modelled from the spec: re-insert the gap offset — shift a logical
value back up by the gap width when it lands at or above the logical gap
start. -/
def gapEncode (s : Nat) : Nat :=
  if 0xD800 ≤ s then s + 0x800 else s

/-- Modelled from the spec: the logical-axis reference addition of
section 3 — shift each operand at or above the gap start down by the gap
width to its logical value, sum the logical values, shift the sum back up
by the gap width when it lands at or above the logical gap start, and
fail (fatal arithmetic error) when the result exceeds the maximum
codepoint. -/
def logical_ref_add (a b : Nat) : Option Nat :=
  if gapEncode (toLogical a + toLogical b) ≤ 0x10FFFF
    then some (gapEncode (toLogical a + toLogical b))
    else none

/-- Rust `std::ops::Bound`, specialised: one end of a user-supplied range
(`Included`, `Excluded` or `Unbounded`), with the bound value as a `Nat`
codepoint. -/
inductive CBound where
  | included : Nat → CBound
  | excluded : Nat → CBound
  | unbounded : CBound
deriving DecidableEq

/-- The payload of a `char`-valued Rust bound is always a valid scalar
value (the type system of the source guarantees it). -/
def boundScalar : CBound → Prop
  | .included t => isScalar t
  | .excluded t => isScalar t
  | .unbounded => True

instance (b : CBound) : Decidable (boundScalar b) := by
  cases b <;> unfold boundScalar <;> exact inferInstance

/-- `to_lowerbound_u32` from `src/lib.rs`: an included bound is validated
as-is; an excluded bound `t` is first validated, then `t + 1` is taken,
falling back to `0xE000` when `t + 1` is not a valid scalar value; an
unbounded end becomes `Char::min_value()` (codepoint 0). -/
def to_lowerbound_u32 : CBound → Option Nat
  | .included t => charFromU32 t
  | .excluded t =>
    match charFromU32 t with
    | none => none
    | some _ =>
      match charFromU32 (t + 1) with
      | some c => some c
      | none => some 0xE000
  | .unbounded => some 0

/-- `to_upperbound_u32` from `src/lib.rs`: an included bound is validated
as-is; an excluded bound `t` is first validated, then `t - 1` (a `u32`
subtraction, wrapping at 0) is taken, falling back to `0xD7FF` when it is
not a valid scalar value; an unbounded end becomes `Char::min_value()`
(codepoint 0). -/
def to_upperbound_u32 : CBound → Option Nat
  | .included t => charFromU32 t
  | .excluded t =>
    match charFromU32 t with
    | none => none
    | some _ =>
      match charFromU32 (u32wrapSub t 1) with
      | some c => some c
      | none => some 0xD7FF
  | .unbounded => some 0

/-- `to_lowerbound_char` from `src/lib.rs`: an included `char` bound is
taken as-is; for an excluded bound `t`, `t + 1` is taken, falling back to
`0xE000` when it is not a valid scalar value; an unbounded end becomes
`Char::min_value()` (codepoint 0). -/
def to_lowerbound_char : CBound → Nat
  | .included t => t
  | .excluded t =>
    match charFromU32 (t + 1) with
    | some c => c
    | none => 0xE000
  | .unbounded => 0

/-- `to_upperbound_char` from `src/lib.rs`: an included `char` bound is
taken as-is; for an excluded bound `t`, `t - 1` (`u32` subtraction,
wrapping at 0) is taken, falling back to `0xD7FF` when it is not a valid
scalar value; an unbounded end becomes `Char::min_value()` (codepoint 0). -/
def to_upperbound_char : CBound → Nat
  | .included t => t
  | .excluded t =>
    match charFromU32 (u32wrapSub t 1) with
    | some c => c
    | none => 0xD7FF
  | .unbounded => 0

/-- Modelled from the spec: `irange`'s `RangeSet::new_from_range(min..=max)`
(the external interval-set container, not part of this repository's
sources): the canonical range set of one closed range, empty when
`min > max`. -/
def new_from_range (lo hi : Nat) : List (Nat × Nat) :=
  if lo ≤ hi then [(lo, hi)] else []

/-- `new_from_range_u32` from `src/lib.rs`: normalize both bounds
(failing when either normalization fails) and build the range set. -/
def new_from_range_u32 (lb ub : CBound) : Option (List (Nat × Nat)) :=
  match to_lowerbound_u32 lb, to_upperbound_u32 ub with
  | some lo, some hi => some (new_from_range lo hi)
  | _, _ => none

/-- `new_from_range_char` from `src/lib.rs`: normalize both `char` bounds
(always succeeds) and build the range set. -/
def new_from_range_char (lb ub : CBound) : List (Nat × Nat) :=
  new_from_range (to_lowerbound_char lb) (to_upperbound_char ub)

/-- `get_cardinality` from `src/lib.rs`: for each stored range, shift
both endpoints to the logical axis (subtracting the gap width from any
endpoint at or above the gap start) and accumulate
`upper - lower + 1`. -/
def get_cardinality (s : List (Nat × Nat)) : Nat :=
  s.foldl (fun acc p => acc + (toLogical p.2 - toLogical p.1 + 1)) 0

/-- The gap-aware successor of a scalar value (the next valid scalar
value on the codepoint axis). -/
def csucc (x : Nat) : Nat :=
  if x = 0xD7FF then 0xE000 else x + 1

/-- The gap-aware predecessor of a scalar value. -/
def cpred (x : Nat) : Nat :=
  if x = 0xE000 then 0xD7FF else x - 1

/-- Modelled from the spec: the complement exposed by the external
interval-set container — the canonical sorted range list of all valid
scalar values (codepoints `0 .. 0x10FFFF` outside the surrogate gap) not
covered by the input, built by walking the sorted disjoint input ranges
with a gap-aware cursor. -/
def complementFrom (low : Nat) : List (Nat × Nat) → List (Nat × Nat)
  | [] => if low ≤ 0x10FFFF then [(low, 0x10FFFF)] else []
  | (l, u) :: rest =>
    if low < l then (low, cpred l) :: complementFrom (csucc u) rest
    else complementFrom (csucc u) rest

/-- Modelled from the spec: the complement of a range set over the valid
scalar-value space. -/
def complement (s : List (Nat × Nat)) : List (Nat × Nat) :=
  complementFrom 0 s

/-- Modelled from the spec: the total range set (every valid scalar
value), as the external container's canonical representation. -/
def totalSet : List (Nat × Nat) := [(0, 0x10FFFF)]

/-- Modelled from the spec: the external container's `is_total`
predicate — the set holds every valid scalar value, i.e. it is the
canonical total set. -/
def is_total (s : List (Nat × Nat)) : Prop := s = totalSet

instance (s : List (Nat × Nat)) : Decidable (is_total s) := by
  unfold is_total
  exact inferInstance

/-- Well-formedness of a range-set representation, from a cursor `low`:
every endpoint is a valid scalar value, ranges are ordered (`low ≤ l ≤ u`)
and pairwise disjoint (the cursor advances to `csucc u`).  These are the
invariants the spec ascribes to the external container. -/
def wfFrom (low : Nat) : List (Nat × Nat) → Prop
  | [] => True
  | (l, u) :: rest => isScalar l ∧ isScalar u ∧ low ≤ l ∧ l ≤ u ∧ wfFrom (csucc u) rest

instance wfFromDecidable : (low : Nat) → (s : List (Nat × Nat)) → Decidable (wfFrom low s)
  | _, [] => .isTrue trivial
  | _, (_, u) :: rest =>
    have : Decidable (wfFrom (csucc u) rest) := wfFromDecidable _ rest
    inferInstanceAs (Decidable (_ ∧ _ ∧ _ ∧ _ ∧ _))

/-- A well-formed range set: sorted, disjoint, valid endpoints. -/
def wf (s : List (Nat × Nat)) : Prop := wfFrom 0 s

instance (s : List (Nat × Nat)) : Decidable (wf s) := by
  unfold wf
  exact inferInstance

example : complement [(97, 122)] = [(0, 96), (123, 0x10FFFF)] := by decide
example : complement totalSet = [] := by decide
example : complement [] = totalSet := by decide
example : get_cardinality totalSet = 1112064 := by decide
example : get_cardinality [(97, 122)] = 26 := by decide
example : wf [(48, 57), (65, 70), (97, 102)] := by decide
example : to_lowerbound_u32 (.excluded 0x10FFFF) = some 0xE000 := by decide
example : to_upperbound_char (.excluded 0) = 0xD7FF := by decide

/-- `identify_character` from `src/tokens/mod.rs`: the four recognized
control characters map to their two-character escapes; everything else to
`none`. -/
def identify_character (c : Nat) : Option String :=
  if c = 10 then some "\\n"
  else if c = 13 then some "\\r"
  else if c = 9 then some "\\t"
  else if c = 11 then some "\\v"
  else none

/-- The regex metacharacters escaped by `get_printable_char` in
`src/lib.rs`: `* + ? ( ) [ ] \x7b \x7d | \ - ^ .` -/
def isMeta (c : Nat) : Prop :=
  c = 42 ∨ c = 43 ∨ c = 63 ∨ c = 40 ∨ c = 41 ∨ c = 91 ∨ c = 93 ∨
  c = 123 ∨ c = 125 ∨ c = 124 ∨ c = 92 ∨ c = 45 ∨ c = 94 ∨ c = 46

instance (c : Nat) : Decidable (isMeta c) := by
  unfold isMeta
  exact inferInstance

/-- Lower-case hexadecimal rendering of `n` padded with zeros to at least
four digits, as Rust's format specifier `{:04x}` produces. -/
def hexPad4 (n : Nat) : String :=
  let s := String.mk (Nat.toDigits 16 n)
  String.mk (List.replicate (4 - s.length) '0') ++ s

/-- `get_printable_char` from `src/lib.rs`: a codepoint in the half-open
window `0x20 ..< 0x7E` is emitted verbatim, backslash-escaped when it is
one of the metacharacters; outside that window the four recognized
control characters use their two-character escapes and everything else is
rendered `\u\x7bXXXX\x7d` in lower-case hex. -/
def get_printable_char (c : Nat) : String :=
  if 0x20 ≤ c ∧ c < 0x7E then
    if isMeta c then "\\" ++ String.singleton (Char.ofNat c)
    else String.singleton (Char.ofNat c)
  else
    match identify_character c with
    | some e => e
    | none => "\\u\x7b" ++ hexPad4 c ++ "\x7d"

/-- `get_perl_class` from `src/tokens/mod.rs`, with the three generated
Perl tables (decimal digits, whitespace, word characters — static data
not present in the sources) as parameters: an exact range-list match
yields the shorthand. -/
def get_perl_class (pd ps pw : List (Nat × Nat)) (r : List (Nat × Nat)) : Option String :=
  if r = pd then some "\\d"
  else if r = ps then some "\\s"
  else if r = pw then some "\\w"
  else none

/-- `find_class` from `src/tokens/mod.rs`, with the static catalog
(generated Unicode tables, not present in the sources) as a parameter:
the source binary-searches a collection sorted by (length, content) with
an exact comparator, which on a sorted catalog is exact-match lookup of
the range list. -/
def find_class (cat : List (List (Nat × Nat) × String)) (r : List (Nat × Nat)) : Option String :=
  (cat.find? fun e => e.1 = r).map Prod.snd

/-- Rust `str::to_uppercase` as used by `identify_class` (on the ASCII
strings `\d`, `\s`, `\w`): upper-case every character. -/
def str_to_upper (s : String) : String :=
  String.mk (s.data.map Char.toUpper)

/-- Steps 2–5 of `identify_class` from `src/tokens/mod.rs`: Perl-table
match, then catalog match, then both again on the complement (upper-cased
shorthand, `\P\x7bName\x7d`), else `none`. -/
def identify_class_rest (cat : List (List (Nat × Nat) × String))
    (pd ps pw : List (Nat × Nat)) (s : List (Nat × Nat)) : Option String :=
  match get_perl_class pd ps pw s with
  | some t => some t
  | none =>
    match find_class cat s with
    | some n => some ("\\p\x7b" ++ n ++ "\x7d")
    | none =>
      match get_perl_class pd ps pw (complement s) with
      | some t => some (str_to_upper t)
      | none =>
        match find_class cat (complement s) with
        | some n => some ("\\P\x7b" ++ n ++ "\x7d")
        | none => none

/-- `identify_class` from `src/tokens/mod.rs`: when the cardinality is
exactly 1, try the control-character escape on the set's first codepoint
(`iter().next()?` propagates `none` on an empty iterator); otherwise fall
through to the Perl/catalog steps on the set and then on its
complement. -/
def identify_class (cat : List (List (Nat × Nat) × String))
    (pd ps pw : List (Nat × Nat)) (s : List (Nat × Nat)) : Option String :=
  if get_cardinality s = 1 then
    match s.head? with
    | none => none
    | some p =>
      match identify_character p.1 with
      | some e => some e
      | none => identify_class_rest cat pd ps pw s
  else identify_class_rest cat pd ps pw s

/-- Modelled from the spec: the class-identification algorithm of
section 4.4, written from its numbered steps — (1) a cardinality-1 set
whose single codepoint is a recognized control character yields its
two-character escape; (2) an exact Perl-table match yields the shorthand;
(3) an exact catalog match yields `\p\x7bName\x7d`; (4) the same two
checks on the complement yield the upper-cased shorthand or
`\P\x7bName\x7d`; (5) otherwise no identification. -/
def spec_identify (cat : List (List (Nat × Nat) × String))
    (pd ps pw : List (Nat × Nat)) (s : List (Nat × Nat)) : Option String :=
  match (if get_cardinality s = 1 then s.head?.bind (fun p => identify_character p.1) else none) with
  | some e => some e
  | none =>
    match get_perl_class pd ps pw s with
    | some t => some t
    | none =>
      match find_class cat s with
      | some n => some ("\\p\x7b" ++ n ++ "\x7d")
      | none =>
        match get_perl_class pd ps pw (complement s) with
        | some t => some (str_to_upper t)
        | none =>
          match find_class cat (complement s) with
          | some n => some ("\\P\x7b" ++ n ++ "\x7d")
          | none => none

/-- The per-range token built by the loop of `convert_to_regex` in
`src/lib.rs`: one escaped character when `min = max`, the two characters
juxtaposed when `min + Char::one() = max`, and the dash form
otherwise. -/
def range_token (p : Nat × Nat) : String :=
  if p.1 = p.2 then get_printable_char p.1
  else if charAdd p.1 1 = some p.2 then get_printable_char p.1 ++ get_printable_char p.2
  else get_printable_char p.1 ++ "-" ++ get_printable_char p.2

/-- The body string accumulated by `convert_to_regex` over the chosen
range list. -/
def regex_body (rtu : List (Nat × Nat)) : String :=
  rtu.foldl (fun sb p => sb ++ range_token p) ""

/-- `convert_to_regex` from `src/lib.rs`: render the complement instead
of the set exactly when the complement has strictly fewer ranges; a
complement rendering is wrapped `[^...]`; a direct rendering is wrapped
`[...]` unless it is a single range holding a single codepoint, which is
returned bare.  The source indexes the first range in the last test, so
that branch presupposes a nonempty list (`to_regex` has already handled
the empty set). -/
def convert_to_regex (s : List (Nat × Nat)) : String :=
  let compl := complement s
  if compl.length < s.length then "[^" ++ regex_body compl ++ "]"
  else if 1 < s.length then "[" ++ regex_body s ++ "]"
  else
    match s with
    | (l, u) :: _ => if l ≠ u then "[" ++ regex_body s ++ "]" else regex_body s
    | [] => "[" ++ regex_body s ++ "]"

/-- `to_regex` from `src/lib.rs`: the empty set renders `[]`, the total
set `.`, an identified class its token, and anything else the explicit
bracket rendering. -/
def to_regex (cat : List (List (Nat × Nat) × String))
    (pd ps pw : List (Nat × Nat)) (s : List (Nat × Nat)) : String :=
  if s = [] then "[]"
  else if is_total s then "."
  else
    match identify_class cat pd ps pw s with
    | some tok => tok
    | none => convert_to_regex s

example : get_printable_char 97 = "a" := by decide
example : get_printable_char 46 = "\\." := by decide
example : get_printable_char 10 = "\\n" := by decide
example : get_printable_char 0x7E = "\\u\x7b007e\x7d" := by decide
example : get_printable_char 0x1F = "\\u\x7b001f\x7d" := by decide
example : to_regex [] [] [] [] [(97, 122)] = "[a-z]" := by decide
example : to_regex [] [] [] [] [(46, 46)] = "\\." := by decide
example : to_regex [] [] [] [] [] = "[]" := by decide
example : to_regex [] [] [] [] totalSet = "." := by decide
example : to_regex [] [(48, 57)] [] [] [(48, 57)] = "\\d" := by decide
example : to_regex [] [(48, 57)] [] [] (complement [(48, 57)]) = "\\D" := by decide
example : to_regex [([(48, 57), (65, 70), (97, 102)], "ASCII_Hex_Digit")] [] [] []
    [(48, 57), (65, 70), (97, 102)] = "\\p\x7bASCII_Hex_Digit\x7d" := by decide
example : to_regex [] [] [] [] [(48, 49), (65, 70), (97, 102)] = "[01A-Fa-f]" := by decide

example : charAdd 0xD7FF 1 = some 0xE000 := by decide
example : charAdd 0xE000 1 = some 0xE001 := by decide
example : charSub 0xE000 1 = some 0xD7FF := by decide
example : charSub 0xE001 1 = some 0xE000 := by decide
example : charAdd 0x7000 0x7000 = some 0xE000 := by decide
example : logical_ref_add 0x7000 0x7000 = some 0xE800 := by decide
example : charSub 0xE000 0x1000 = some 0xC800 := by decide

lemma to_lowerbound_char_scalar (b : CBound) (h : boundScalar b) :
    isScalar (to_lowerbound_char b) := by
  cases b with
  | included t => exact h
  | excluded t =>
    simp only [to_lowerbound_char, charFromU32]
    by_cases hs : isScalar (t + 1)
    · rw [if_pos hs]; exact hs
    · rw [if_neg hs]
      show isScalar 0xE000
      decide
  | unbounded =>
    show isScalar 0
    decide

lemma to_upperbound_char_scalar (b : CBound) (h : boundScalar b) :
    isScalar (to_upperbound_char b) := by
  cases b with
  | included t => exact h
  | excluded t =>
    simp only [to_upperbound_char, charFromU32]
    by_cases hs : isScalar (u32wrapSub t 1)
    · rw [if_pos hs]; exact hs
    · rw [if_neg hs]
      show isScalar 0xD7FF
      decide
  | unbounded =>
    show isScalar 0
    decide

lemma wf_new_from_range (lo hi : Nat) (hlo : isScalar lo) (hhi : isScalar hi) :
    wf (new_from_range lo hi) := by
  unfold new_from_range
  split_ifs with h
  · exact ⟨hlo, hhi, Nat.zero_le _, h, trivial⟩
  · trivial

/-- C3: constructing a range set from a character range always succeeds:
for every combination of bound kinds and every `char` bound value, both
normalized endpoints are valid scalar values and `new_from_range_char`
terminates normally with a well-formed range set — no panic, no failure
case. -/
theorem C3_new_from_range_char_total (lb ub : CBound)
    (hlb : boundScalar lb) (hub : boundScalar ub) :
    isScalar (to_lowerbound_char lb) ∧ isScalar (to_upperbound_char ub) ∧
    wf (new_from_range_char lb ub) :=
  ⟨to_lowerbound_char_scalar lb hlb, to_upperbound_char_scalar ub hub,
    wf_new_from_range _ _ (to_lowerbound_char_scalar lb hlb)
      (to_upperbound_char_scalar ub hub)⟩

/-- Witness for C3 at the edge bounds: an exclusive lower bound on the
last codepoint before the gap and an exclusive upper bound on codepoint
0. -/
theorem C3_witness :
    boundScalar (CBound.excluded 0xD7FF) ∧ boundScalar (CBound.excluded 0) ∧
    (isScalar (to_lowerbound_char (CBound.excluded 0xD7FF)) ∧
      isScalar (to_upperbound_char (CBound.excluded 0)) ∧
      wf (new_from_range_char (CBound.excluded 0xD7FF) (CBound.excluded 0))) :=
  ⟨by decide, by decide,
    C3_new_from_range_char_total (CBound.excluded 0xD7FF) (CBound.excluded 0)
      (by decide) (by decide)⟩

/-- C4 counterexample: normalizing an excluded lower `u32` bound at the
maximum codepoint does not fail — it returns the first valid value after
the gap, `0xE000`, through the same fallback branch as the gap skip. -/
theorem C4_counterexample :
    to_lowerbound_u32 (CBound.excluded 0x10FFFF) = some 0xE000 ∧
    to_lowerbound_u32 (CBound.excluded 0x10FFFF) ≠ none := by decide

/-- C4 (amended): normalizing an excluded lower bound `v` yields `v + 1`
when that is a valid scalar value; yields `0xE000` when `v` is the last
valid value before the gap; also yields `0xE000` (rather than failing)
when `v` is the maximum codepoint; and fails only when `v` itself is not
a valid scalar value. -/
theorem C4_lowerbound_u32_excluded (v : Nat) :
    (isScalar v → isScalar (v + 1) → to_lowerbound_u32 (.excluded v) = some (v + 1)) ∧
    (v = 0xD7FF → to_lowerbound_u32 (.excluded v) = some 0xE000) ∧
    (v = 0x10FFFF → to_lowerbound_u32 (.excluded v) = some 0xE000) ∧
    (¬ isScalar v → to_lowerbound_u32 (.excluded v) = none) := by
  refine ⟨fun hv hv1 => ?_, fun hv => ?_, fun hv => ?_, fun hv => ?_⟩
  · simp [to_lowerbound_u32, charFromU32, hv, hv1]
  · subst hv; decide
  · subst hv; decide
  · simp [to_lowerbound_u32, charFromU32, hv]

/-- Witness for C4 (amended) at `v = 97` and at the gap edge
`v = 0xD7FF`. -/
theorem C4_witness :
    to_lowerbound_u32 (CBound.excluded 97) = some 98 ∧
    to_lowerbound_u32 (CBound.excluded 0xD7FF) = some 0xE000 :=
  ⟨(C4_lowerbound_u32_excluded 97).1 (by decide) (by decide),
    (C4_lowerbound_u32_excluded 0xD7FF).2.1 rfl⟩

/-- C9: bound normalization maps an unbounded lower end to the minimum
scalar value (codepoint 0) and an unbounded upper end to the minimum
scalar value as well, in both the `u32` and the `char` constructors. -/
theorem C9_unbounded_bounds :
    to_lowerbound_u32 CBound.unbounded = some 0 ∧
    to_upperbound_u32 CBound.unbounded = some 0 ∧
    to_lowerbound_char CBound.unbounded = 0 ∧
    to_upperbound_char CBound.unbounded = 0 := by decide

/-- C10: normalizing an excluded lower `char` bound at `char::MAX`
(`0x10FFFF`) yields `0xE000` — the same fallback branch as the
surrogate-gap skip at `0xD7FF` — so a range built from an exclusive lower
bound of `char::MAX` and an inclusive upper bound of `char::MAX` has
lower endpoint `0xE000` and is not empty. -/
theorem C10_excluded_max_lowerbound :
    to_lowerbound_char (CBound.excluded 0x10FFFF) = 0xE000 ∧
    to_lowerbound_char (CBound.excluded 0xD7FF) = 0xE000 ∧
    new_from_range_char (CBound.excluded 0x10FFFF) (CBound.included 0x10FFFF) =
      [(0xE000, 0x10FFFF)] ∧
    new_from_range_char (CBound.excluded 0x10FFFF) (CBound.included 0x10FFFF) ≠ [] := by
  decide

/-- The configurations in which the source's raw-sum addition coincides
with the logical-axis reference: exactly one operand at or above the gap,
or both below it with a raw sum below `0xE000`. -/
def addAgrees (a b : Nat) : Prop :=
  (0xE000 ≤ a ∧ b < 0xD800) ∨ (a < 0xD800 ∧ 0xE000 ≤ b) ∨
  (a < 0xD800 ∧ b < 0xD800 ∧ a + b < 0xE000)

instance (a b : Nat) : Decidable (addAgrees a b) := by
  unfold addAgrees
  exact inferInstance

/-- The configurations in which `(a - b) + b = a` holds for the source's
operators (subtraction is logical-axis, addition is raw-sum). -/
def subAgrees (a b : Nat) : Prop :=
  (a < 0xD800 ∧ b ≤ a) ∨
  (0xE000 ≤ a ∧ b < 0xD800 ∧ (a < 0xE800 ∨ b + 0xE000 ≤ a)) ∨
  (0xE000 ≤ a ∧ 0xE000 ≤ b ∧ b ≤ a ∧ a < b + 0xD800)

instance (a b : Nat) : Decidable (subAgrees a b) := by
  unfold subAgrees
  exact inferInstance

/-- C1 counterexample: `0x7000` and `0x7000` are valid scalar values
whose logical sum (`0xE000`) is in range, yet the source adds raw
codepoints and returns `0xE000` where the logical-axis reference of the
claim returns `0xE800`. -/
theorem C1_counterexample :
    isScalar 0x7000 ∧ toLogical 0x7000 + toLogical 0x7000 ≤ 0x10F7FF ∧
    charAdd 0x7000 0x7000 = some 0xE000 ∧
    logical_ref_add 0x7000 0x7000 = some 0xE800 ∧
    charAdd 0x7000 0x7000 ≠ logical_ref_add 0x7000 0x7000 := by decide

set_option maxRecDepth 2000 in
set_option maxHeartbeats 1000000 in
/-- C1 (amended): `Char` addition adds the raw codepoints and shifts the
sum past the gap only when the raw sum itself lands inside the gap;
overflow past the maximum codepoint is fatal (`none`), never a silent
wrap.  It coincides with the logical-axis reference exactly in the
`addAgrees` configurations: when exactly one operand is at or above the
gap, or both are below it and their raw sum is below `0xE000`. -/
theorem C1_add_matches_logical (a b : Nat) (ha : isScalar a) (hb : isScalar b)
    (hag : addAgrees a b) : charAdd a b = logical_ref_add a b := by
  unfold isScalar at ha hb
  unfold addAgrees at hag
  simp only [charAdd, logical_ref_add, charFromU32_eq, toLogical, gapEncode]
  split_ifs
  all_goals first | (exact congrArg some (by omega)) | rfl | (exfalso; omega)

/-- Witness for C1 (amended) at the gap edge: `0xD7FF + 1`. -/
theorem C1_witness :
    isScalar 0xD7FF ∧ isScalar 1 ∧ addAgrees 0xD7FF 1 ∧
    charAdd 0xD7FF 1 = logical_ref_add 0xD7FF 1 :=
  ⟨by decide, by decide, by decide,
    C1_add_matches_logical 0xD7FF 1 (by decide) (by decide) (by decide)⟩

/-- C2 counterexample: with `a = 0xD000`, `b = 0x1000` (both valid, no
overflow or underflow in any intermediate result) `(a + b) - b` is
`0xC800`, not `a`; and with `a = 0xE800`, `b = 0x1000`, `(a - b) + b` is
`0xE000`, not `a`. -/
theorem C2_counterexample :
    isScalar 0xD000 ∧ isScalar 0x1000 ∧ isScalar 0xE800 ∧
    charAdd 0xD000 0x1000 = some 0xE000 ∧
    charSub 0xE000 0x1000 = some 0xC800 ∧
    charSub 0xE000 0x1000 ≠ some 0xD000 ∧
    charSub 0xE800 0x1000 = some 0xD000 ∧
    charAdd 0xD000 0x1000 ≠ some 0xE800 := by decide

set_option maxRecDepth 2000 in
set_option maxHeartbeats 1000000 in
/-- C2 (amended): the inverse properties hold on the agreeing
configurations — `(a + b) - b = a` whenever `addAgrees a b` (exactly one
operand at or above the gap, or both below with raw sum below `0xE000`),
and `(a - b) + b = a` whenever `subAgrees a b` — provided the first
operation did not overflow or underflow (returned a value). -/
theorem C2_add_sub_inverse (a b c d : Nat) :
    (isScalar a → isScalar b → addAgrees a b → charAdd a b = some c →
      charSub c b = some a) ∧
    (isScalar a → isScalar b → subAgrees a b → charSub a b = some d →
      charAdd d b = some a) := by
  constructor
  · intro hsa hsb hag hc
    unfold isScalar at hsa hsb
    unfold addAgrees at hag
    simp only [charAdd, charFromU32_eq] at hc
    split_ifs at hc
    all_goals simp only [Option.some.injEq, reduceCtorEq] at hc
    all_goals subst hc
    all_goals simp only [charSub, charFromU32_eq, toLogical, u32wrapSub, u32wrapAdd]
    all_goals split_ifs
    all_goals first | (exact congrArg some (by omega)) | (exfalso; omega)
  · intro hsa hsb hag hd
    unfold isScalar at hsa hsb
    unfold subAgrees at hag
    simp only [charSub, charFromU32_eq, toLogical, u32wrapSub, u32wrapAdd] at hd
    split_ifs at hd
    all_goals simp only [Option.some.injEq, reduceCtorEq] at hd
    all_goals subst hd
    all_goals simp only [charAdd, charFromU32_eq]
    all_goals split_ifs
    all_goals first | (exact congrArg some (by omega)) | (exfalso; omega)

/-- Witness for C2 (amended): round trips at the gap edge. -/
theorem C2_witness :
    charSub 0xE000 1 = some 0xD7FF ∧ charAdd 0xD7FF 1 = some 0xE000 :=
  ⟨(C2_add_sub_inverse 0xD7FF 1 0xE000 0).1 (by decide) (by decide) (by decide)
      (by decide),
    (C2_add_sub_inverse 0xE000 1 0 0xD7FF).2 (by decide) (by decide) (by decide)
      (by decide)⟩

lemma identify_character_eq_none (c : Nat) (h10 : c ≠ 10) (h13 : c ≠ 13)
    (h9 : c ≠ 9) (h11 : c ≠ 11) : identify_character c = none := by
  simp [identify_character, h10, h13, h9, h11]

/-- C5 counterexample: `0x7E` (`~`) is printable ASCII in the claim's
inclusive window `0x20..0x7E` and is not a metacharacter, yet the source
tests the half-open window `0x20..<0x7E` and renders it as a hex escape
instead of verbatim. -/
theorem C5_counterexample :
    (0x20 ≤ 0x7E ∧ 0x7E ≤ 0x7E ∧ ¬ isMeta 0x7E) ∧
    get_printable_char 0x7E = "\\u\x7b007e\x7d" ∧
    get_printable_char 0x7E ≠ String.singleton (Char.ofNat 0x7E) := by decide

/-- C5 (amended): in explicit bracket rendering, a character in the
half-open printable window `0x20 ≤ c < 0x7E` that is not a metacharacter
is emitted verbatim; a metacharacter in that window is emitted
backslash-escaped; the four recognized control characters are emitted as
their two-character escapes; every other codepoint outside the window
(including `0x7E` itself) is emitted as a lower-case
`\u\x7bXXXX\x7d` hex escape. -/
theorem C5_escaping (c : Nat) :
    (0x20 ≤ c → c < 0x7E → ¬ isMeta c →
      get_printable_char c = String.singleton (Char.ofNat c)) ∧
    (0x20 ≤ c → c < 0x7E → isMeta c →
      get_printable_char c = "\\" ++ String.singleton (Char.ofNat c)) ∧
    (c = 10 → get_printable_char c = "\\n") ∧
    (c = 13 → get_printable_char c = "\\r") ∧
    (c = 9 → get_printable_char c = "\\t") ∧
    (c = 11 → get_printable_char c = "\\v") ∧
    (¬ (0x20 ≤ c ∧ c < 0x7E) → c ≠ 10 → c ≠ 13 → c ≠ 9 → c ≠ 11 →
      get_printable_char c = "\\u\x7b" ++ hexPad4 c ++ "\x7d") := by
  refine ⟨fun h1 h2 h3 => ?_, fun h1 h2 h3 => ?_, fun h => ?_, fun h => ?_,
    fun h => ?_, fun h => ?_, fun hw h10 h13 h9 h11 => ?_⟩
  · simp only [get_printable_char]
    rw [if_pos ⟨h1, h2⟩, if_neg h3]
  · simp only [get_printable_char]
    rw [if_pos ⟨h1, h2⟩, if_pos h3]
  · subst h; decide
  · subst h; decide
  · subst h; decide
  · subst h; decide
  · simp only [get_printable_char]
    rw [if_neg hw, identify_character_eq_none c h10 h13 h9 h11]

/-- Witness for C5 (amended): one character of each escaping flavor. -/
theorem C5_witness :
    get_printable_char 97 = String.singleton (Char.ofNat 97) ∧
    get_printable_char 46 = "\\" ++ String.singleton (Char.ofNat 46) ∧
    get_printable_char 10 = "\\n" ∧
    get_printable_char 0x1F = "\\u\x7b" ++ hexPad4 0x1F ++ "\x7d" :=
  ⟨(C5_escaping 97).1 (by decide) (by decide) (by decide),
    (C5_escaping 46).2.1 (by decide) (by decide) (by decide),
    (C5_escaping 10).2.2.1 rfl,
    (C5_escaping 0x1F).2.2.2.2.2.2 (by decide) (by decide) (by decide)
      (by decide) (by decide)⟩

/-- C8: the source's class identification coincides with the spec's
step-ordered algorithm (first match wins, complement checks last) for
every catalog, every Perl-table triple and every range set; and a catalog
hit is an exact structural match: `find_class` answers `some n` only when
the pair `(r, n)` is literally an entry of the catalog (same count, same
ordered range values). -/
theorem C8_identify_class (cat : List (List (Nat × Nat) × String))
    (pd ps pw : List (Nat × Nat)) (s : List (Nat × Nat)) :
    identify_class cat pd ps pw s = spec_identify cat pd ps pw s ∧
    (∀ r n, find_class cat r = some n → (r, n) ∈ cat) := by
  constructor
  · by_cases h1 : get_cardinality s = 1
    · cases s with
      | nil => exact absurd h1 (by decide)
      | cons p rest =>
        unfold identify_class spec_identify
        rw [if_pos h1, if_pos h1]
        cases hid : identify_character p.1 <;> simp [hid, identify_class_rest]
    · unfold identify_class spec_identify
      rw [if_neg h1, if_neg h1]
      simp [identify_class_rest]
  · intro r n h
    unfold find_class at h
    obtain ⟨e, he, hn⟩ := Option.map_eq_some'.mp h
    have hmem := List.mem_of_find?_eq_some he
    have hp := List.find?_some he
    have hr : e.1 = r := by simpa using hp
    have he2 : e = (r, n) := Prod.ext hr hn
    rwa [he2] at hmem

/-- Witness for C8 on a one-entry catalog holding the decimal-digit
range. -/
theorem C8_witness :
    identify_class [([(48, 57)], "Nd")] [] [] [] [(48, 57)] =
      spec_identify [([(48, 57)], "Nd")] [] [] [] [(48, 57)] ∧
    ([(48, 57)], "Nd") ∈ [([(48, 57)], "Nd")] :=
  ⟨(C8_identify_class [([(48, 57)], "Nd")] [] [] [] [(48, 57)]).1,
    (C8_identify_class [([(48, 57)], "Nd")] [] [] [] []).2 [(48, 57)] "Nd"
      (by decide)⟩

/-- C6 counterexample: for the singleton set holding `.` (with no class
match), `to_regex` returns the bare escaped character `\.`, not the
bracket-wrapped direct form the claim requires. -/
theorem C6_counterexample :
    identify_class [] [] [] [] [(46, 46)] = none ∧
    to_regex [] [] [] [] [(46, 46)] = "\\." ∧
    to_regex [] [] [] [] [(46, 46)] ≠ "[" ++ regex_body [(46, 46)] ++ "]" := by
  decide

/-- C6 (amended): `to_regex` renders the empty set as `[]`, the total set
as `.`, an identified class as its token verbatim, and otherwise falls
through to explicit rendering, which chooses the complement exactly when
it has strictly fewer disjoint ranges (ties favoring the direct set),
wraps a complement rendering in `[^...]` and a direct rendering in
`[...]` — except that a direct rendering consisting of a single range
holding a single codepoint is returned bare, without brackets. -/
theorem C6_to_regex_decision (cat : List (List (Nat × Nat) × String))
    (pd ps pw : List (Nat × Nat)) (s : List (Nat × Nat)) :
    (s = [] → to_regex cat pd ps pw s = "[]") ∧
    (s ≠ [] → is_total s → to_regex cat pd ps pw s = ".") ∧
    (∀ t, s ≠ [] → ¬ is_total s → identify_class cat pd ps pw s = some t →
      to_regex cat pd ps pw s = t) ∧
    (s ≠ [] → ¬ is_total s → identify_class cat pd ps pw s = none →
      to_regex cat pd ps pw s = convert_to_regex s) ∧
    ((complement s).length < s.length →
      convert_to_regex s = "[^" ++ regex_body (complement s) ++ "]") ∧
    (¬ (complement s).length < s.length → 1 < s.length →
      convert_to_regex s = "[" ++ regex_body s ++ "]") ∧
    (∀ l u rest, ¬ (complement s).length < s.length → s = (l, u) :: rest →
      ¬ 1 < s.length → l ≠ u →
      convert_to_regex s = "[" ++ regex_body s ++ "]") ∧
    (∀ l rest, ¬ (complement s).length < s.length → s = (l, l) :: rest →
      ¬ 1 < s.length → convert_to_regex s = regex_body s) := by
  refine ⟨fun h => ?_, fun hne ht => ?_, fun t hne hnt hid => ?_,
    fun hne hnt hid => ?_, fun h => ?_, fun h h2 => ?_,
    fun l u rest h hs h2 hlu => ?_, fun l rest h hs h2 => ?_⟩
  · subst h; rfl
  · unfold to_regex
    rw [if_neg hne, if_pos ht]
  · unfold to_regex
    rw [if_neg hne, if_neg hnt, hid]
  · unfold to_regex
    rw [if_neg hne, if_neg hnt, hid]
  · unfold convert_to_regex
    rw [if_pos h]
  · unfold convert_to_regex
    rw [if_neg h, if_pos h2]
  · subst hs
    unfold convert_to_regex
    rw [if_neg h, if_neg h2]
    simp [hlu]
  · subst hs
    unfold convert_to_regex
    rw [if_neg h, if_neg h2]
    simp

/-- Witness for C6 (amended) on `[a-z]`: identification fails on the
empty catalog, the direct set has fewer ranges than its complement, and
the result is the bracket-wrapped body. -/
theorem C6_witness :
    to_regex [] [] [] [] [(97, 122)] = convert_to_regex [(97, 122)] ∧
    convert_to_regex [(97, 122)] = "[" ++ regex_body [(97, 122)] ++ "]" :=
  ⟨(C6_to_regex_decision [] [] [] [] [(97, 122)]).2.2.2.1 (by decide) (by decide)
      (by decide),
    (C6_to_regex_decision [] [] [] [] [(97, 122)]).2.2.2.2.2.2.1 97 122 []
      (by decide) rfl (by decide) (by decide)⟩

/-- Recursive form of `get_cardinality`'s accumulation. -/
def cardSum : List (Nat × Nat) → Nat
  | [] => 0
  | p :: r => (toLogical p.2 - toLogical p.1 + 1) + cardSum r

lemma get_cardinality_go (s : List (Nat × Nat)) (acc : Nat) :
    s.foldl (fun acc p => acc + (toLogical p.2 - toLogical p.1 + 1)) acc =
      acc + cardSum s := by
  induction s generalizing acc with
  | nil => simp [cardSum]
  | cons p r ih =>
    rw [List.foldl_cons, ih]
    simp only [cardSum]
    omega

lemma get_cardinality_eq (s : List (Nat × Nat)) :
    get_cardinality s = cardSum s := by
  unfold get_cardinality
  rw [get_cardinality_go]
  omega

/-- The cursor of the complement walk is a valid scalar value or the
first value past the codepoint space. -/
def lowOk (low : Nat) : Prop := isScalar low ∨ low = 0x110000

lemma toLogical_le_max (x : Nat) (hx : isScalar x) : toLogical x ≤ 0x10F7FF := by
  unfold isScalar at hx
  unfold toLogical
  split_ifs <;> omega

lemma toLogical_mono (x y : Nat) (hx : isScalar x) (hy : isScalar y)
    (h : x ≤ y) : toLogical x ≤ toLogical y := by
  unfold isScalar at hx hy
  unfold toLogical
  split_ifs <;> omega

lemma toLogical_csucc (u : Nat) (hu : isScalar u) :
    toLogical (csucc u) = toLogical u + 1 := by
  unfold isScalar at hu
  unfold toLogical csucc
  split_ifs <;> omega

lemma toLogical_cpred (l : Nat) (hl : isScalar l) (h0 : 0 < l) :
    toLogical (cpred l) + 1 = toLogical l := by
  unfold isScalar at hl
  unfold toLogical cpred
  split_ifs <;> omega

lemma cpred_scalar (l : Nat) (hl : isScalar l) (h0 : 0 < l) :
    isScalar (cpred l) := by
  unfold isScalar at hl
  unfold isScalar cpred
  split_ifs <;> omega

lemma scalar_le_cpred (low l : Nat) (hlow : isScalar low) (hl : isScalar l)
    (h : low < l) : low ≤ cpred l := by
  unfold isScalar at hlow hl
  unfold cpred
  split_ifs <;> omega

lemma csucc_lowOk (u : Nat) (hu : isScalar u) : lowOk (csucc u) := by
  unfold isScalar at hu
  unfold lowOk isScalar csucc
  split_ifs <;> omega

lemma complementFrom_card (s : List (Nat × Nat)) : ∀ low, lowOk low →
    wfFrom low s →
    cardSum (complementFrom low s) + cardSum s = 0x10F800 - toLogical low := by
  induction s with
  | nil =>
    intro low hlow hwf
    unfold complementFrom
    by_cases h : low ≤ 0x10FFFF
    · rw [if_pos h]
      have hsl : isScalar low := by
        rcases hlow with h1 | h1
        · exact h1
        · omega
      have h1 := toLogical_le_max low hsl
      have h2 : toLogical 0x10FFFF = 0x10F7FF := by decide
      simp only [cardSum]
      omega
    · rw [if_neg h]
      have h110 : low = 0x110000 := by
        rcases hlow with h1 | h1
        · unfold isScalar at h1; omega
        · exact h1
      subst h110
      simp only [cardSum]
      decide
  | cons p rest ih =>
    intro low hlow hwf
    obtain ⟨l, u⟩ := p
    obtain ⟨hl, hu, hlowl, hlu, hwfr⟩ := hwf
    have key := ih (csucc u) (csucc_lowOk u hu) hwfr
    have h1 := toLogical_csucc u hu
    have h4 := toLogical_mono l u hl hu hlu
    have h5 := toLogical_le_max u hu
    unfold complementFrom
    by_cases hc : low < l
    · rw [if_pos hc]
      have hsl : isScalar low := by
        rcases hlow with hx | hx
        · exact hx
        · exfalso
          unfold isScalar at hl
          omega
      have h2 := toLogical_cpred l hl (by omega)
      have h3 := toLogical_mono low (cpred l) hsl
        (cpred_scalar l hl (by omega)) (scalar_le_cpred low l hsl hl hc)
      simp only [cardSum]
      omega
    · rw [if_neg hc]
      have hll : low = l := by omega
      have h6 : toLogical low = toLogical l := by rw [hll]
      simp only [cardSum]
      omega

/-- C7: for every well-formed range set `S`,
`cardinality S + cardinality (complement S) = 1112064`; the cardinality
of the empty set is 0 and the cardinality of the total set is
1112064. -/
theorem C7_cardinality_complement :
    (∀ s, wf s → get_cardinality s + get_cardinality (complement s) = 1112064) ∧
    get_cardinality [] = 0 ∧ get_cardinality totalSet = 1112064 := by
  refine ⟨fun s hwf => ?_, rfl, by decide⟩
  rw [get_cardinality_eq, get_cardinality_eq]
  have key := complementFrom_card s 0 (Or.inl (by decide)) hwf
  have h0 : toLogical 0 = 0 := by decide
  unfold complement
  omega

/-- Witness for C7 on the set `[a-z]` (cardinality 26). -/
theorem C7_witness :
    wf [(97, 122)] ∧
    get_cardinality [(97, 122)] +
      get_cardinality (complement [(97, 122)]) = 1112064 :=
  ⟨by decide, C7_cardinality_complement.1 [(97, 122)] (by decide)⟩
